import Mathlib

/-!
# Verification of `traffic-screenshot-scraper.py`

Shallow embedding of the timelapse capture script: a filesystem model
(files with directory, name, content and mtime; a set of directories),
the retention sweep `purge_older_than`, the catalog flattening and
limit selection, the per-camera capture loop, the manifest rebuild and
the top-level `main`, together with theorems checking the spec's claims.
-/

/-- A file on disk: the directory it lives in (as path components),
its filename, its content and its last-modified time in seconds. -/
structure FileEnt where
  dir : List String
  name : String
  content : String
  mtime : Int
  deriving DecidableEq, Repr

/-- The filesystem: a list of files plus the set of existing directories. -/
structure FS where
  files : List FileEnt
  dirs : List (List String)
  deriving DecidableEq, Repr

/-- `open(path, "w")` / ffmpeg output / `shutil.copy2`: (over)write one file. -/
def FS.writeFile (fs : FS) (d : List String) (n : String) (c : String) (m : Int) : FS :=
  { fs with files :=
      ⟨d, n, c, m⟩ :: fs.files.filter (fun f => ¬ (f.dir = d ∧ f.name = n)) }

/-- `Path.mkdir(parents=True, exist_ok=True)`. -/
def FS.mkdirP (fs : FS) (d : List String) : FS :=
  { fs with dirs := if d ∈ fs.dirs then fs.dirs else d :: fs.dirs }

/-- Read a file's content, `none` when absent. -/
def FS.readFile (fs : FS) (d : List String) (n : String) : Option String :=
  (fs.files.find? (fun f => f.dir = d ∧ f.name = n)).map FileEnt.content

/-- The `*.jpg` pattern used by `rglob` and `glob` in the script: the
filename ends with `.jpg`. -/
def isJpgName (s : String) : Bool := List.isSuffixOf ".jpg".data s.data

/-- `purge_older_than(root, days)` from the script: a negative (or absent)
retention returns immediately; otherwise every `*.jpg` file under `root`
whose mtime is strictly before `now - days` days is deleted.
`now` is the wall-clock time at the start of the sweep, in seconds. -/
def purge_older_than (fs : FS) (root : List String) (days : Int) (now : Int) : FS :=
  if days < 0 then fs
  else
    { fs with files := fs.files.filter (fun f =>
        ¬ (root.isPrefixOf f.dir ∧ isJpgName f.name ∧
           f.mtime < now - days * 86400)) }

/-- One camera object from the catalog: `cam.get("id")` / `cam.get("stream")`
return `None` when the key is absent, so both fields are optional. -/
structure Cam where
  id : Option String
  stream : Option String
  deriving DecidableEq, Repr

/-- One region object: `county.get("cams", [])` — a missing key is the
empty list, other region fields are ignored. -/
structure County where
  cams : List Cam
  deriving DecidableEq, Repr

/-- Line 85: flatten the region groups, preserving order. -/
def flattenCams (catalog : List County) : List Cam :=
  (catalog.map County.cams).flatten

/-- Lines 86-87: `islice` the flat generator when a non-negative limit was
given; a limit of `None` or a negative limit selects everything. -/
def selectCams (limit : Option Int) (cams : List Cam) : List Cam :=
  match limit with
  | some n => if 0 ≤ n then cams.take n.toNat else cams
  | none => cams

/-- Line 96: `not cam_id or not stream_url` — a field is truthy exactly
when it is present and a non-empty string. -/
def strOptTruthy : Option String → Bool
  | none => false
  | some s => ¬ s.isEmpty

/-- A camera entry passes the field validation of lines 94-96. -/
def camValid (c : Cam) : Bool := strOptTruthy c.id && strOptTruthy c.stream

/-- The pieces of the outside world the script consults: path expansion
(`expand_path`), existence checks, the parsed content of a catalog file
(`none` models a `json.load` failure), and whether the ffmpeg invocation
against a given stream URL exits with status 0. -/
structure Env where
  expand : String → String
  pathExists : String → Bool
  parseCatalog : String → Option (List County)
  captureOk : String → Bool

/-- The resolved command-line configuration (lines 28-47). Staging and
publish directories are kept as path-component lists. -/
structure Config where
  limit : Option Int
  noPublish : Bool
  keepDays : Int
  quality : String
  camsFile : String
  scriptDir : String
  stagingDir : List String
  publishDir : List String

/-- Line 50: the fixed ordered candidate list for `cams.json`. -/
def camCandidates (cfg : Config) : List String :=
  [cfg.camsFile, cfg.scriptDir ++ "/cams.json", "./cams.json", "/cams.json"]

/-- Lines 50-56: the first candidate whose expanded path exists, expanded. -/
def resolveCamsFile (env : Env) (cfg : Config) : Option String :=
  ((camCandidates cfg).find? (fun c => env.pathExists (env.expand c))).map env.expand

/-- A wall-clock instant as the `datetime` components used by
`strftime("%Y-%m-%dT%H-%M-%S")`. -/
structure DateTime where
  year : Nat
  month : Nat
  day : Nat
  hour : Nat
  minute : Nat
  second : Nat

/-- The decimal digit character of `n % 10`. -/
def digitChar (n : Nat) : Char :=
  ['0', '1', '2', '3', '4', '5', '6', '7', '8', '9'].getD (n % 10) '0'

/-- Zero-padded two-digit decimal rendering (faithful to `%m`, `%d`, `%H`,
`%M`, `%S` for the in-range values `datetime` guarantees). -/
def pad2 (n : Nat) : List Char := [digitChar (n / 10), digitChar n]

/-- Zero-padded four-digit decimal rendering (faithful to `%Y` for years
up to 9999, which `datetime` guarantees). -/
def pad4 (n : Nat) : List Char :=
  [digitChar (n / 1000), digitChar (n / 100), digitChar (n / 10), digitChar n]

/-- Line 90: `datetime.now().strftime("%Y-%m-%dT%H-%M-%S")`. -/
def formatTs (dt : DateTime) : String :=
  String.mk (pad4 dt.year ++ '-' :: pad2 dt.month ++ '-' :: pad2 dt.day ++
    'T' :: pad2 dt.hour ++ '-' :: pad2 dt.minute ++ '-' :: pad2 dt.second)

/-- The mutable state of the capture loop: the filesystem, the set of
touched camera ids (kept as a duplicate-free list) and the console log. -/
structure RunState where
  fs : FS
  touched : List String
  log : List String

/-- `touched.add(cam_id)`: set insertion. -/
def insertTouched (t : List String) (x : String) : List String :=
  if x ∈ t then t else t ++ [x]

/-- Lines 93-120: the body of the capture loop for one camera entry.
`ts` is the run timestamp computed once before the loop, `now` the mtime
the captured frames receive. On ffmpeg failure the `CalledProcessError`
is caught: a message is logged and nothing else happens. -/
def processCam (env : Env) (cfg : Config) (ts : String) (now : Int)
    (st : RunState) (cam : Cam) : RunState :=
  if ¬ camValid cam then st
  else
    let camId := cam.id.getD ""
    let streamUrl := cam.stream.getD ""
    let stageCam := cfg.stagingDir ++ [camId]
    let fs1 := st.fs.mkdirP stageCam
    let filename := ts ++ ".jpg"
    let log1 := st.log ++ ["🎥 Capturing " ++ camId ++ "…"]
    if env.captureOk streamUrl then
      let fs2 := fs1.writeFile stageCam filename ("frame:" ++ streamUrl) now
      let log2 := log1 ++ ["✅ Saved " ++ camId ++ "/" ++ filename]
      if cfg.noPublish then
        { fs := fs2, touched := insertTouched st.touched camId, log := log2 }
      else
        let pubCam := cfg.publishDir ++ [camId]
        let fs3 := (fs2.mkdirP pubCam).writeFile pubCam filename
          ("frame:" ++ streamUrl) now
        { fs := fs3, touched := insertTouched st.touched camId,
          log := log2 ++ ["➡️  Published to " ++ camId ++ "/" ++ filename] }
    else
      { fs := fs1, touched := st.touched,
        log := log1 ++ ["❌ Failed to capture " ++ camId ++ " (" ++ streamUrl ++ ")"] }

/-- Line 127: the `*.jpg` filenames directly inside `folder`. -/
def jpgNamesIn (fs : FS) (folder : List String) : List String :=
  (fs.files.filter (fun f => f.dir = folder ∧ isJpgName f.name)).map FileEnt.name

/-- Lexicographic comparison of character lists by code point, the order
Python uses on `str`. -/
def charListLe : List Char → List Char → Bool
  | [], _ => true
  | _ :: _, [] => false
  | a :: as, b :: bs =>
    if a.toNat < b.toNat then true
    else if b.toNat < a.toNat then false
    else charListLe as bs

/-- Python's `<=` on strings: lexicographic by code point. -/
def strLeb (a b : String) : Bool := charListLe a.data b.data

/-- Insert into an ascending list, keeping it ascending. -/
def insertSorted (x : String) : List String → List String
  | [] => [x]
  | y :: ys => if strLeb x y then x :: y :: ys else y :: insertSorted x ys

/-- Python `sorted` on a list of strings: the ascending reordering
(insertion sort; the order is total and antisymmetric, so the result is
the unique sorted permutation Python's sort also produces). -/
def sortedStrings (l : List String) : List String := l.foldr insertSorted []

/-- `json.dump` escaping for the characters that can occur in filenames
here (quote and backslash; other characters are emitted verbatim). -/
def jsonEscape (s : String) : String :=
  String.mk (s.data.flatMap (fun c =>
    if c = '"' ∨ c = '\\' then ['\\', c] else [c]))

/-- `json.dump(frames, f)` for a list of strings. -/
def jsonArray (l : List String) : String :=
  "[" ++ String.intercalate ", " (l.map (fun s => "\"" ++ jsonEscape s ++ "\"")) ++ "]"

/-- Lines 124-129, one iteration: write `frames.json` for one touched
camera when its folder under the index root is a directory. -/
def manifestStep (indexRoot : List String) (now : Int) (acc : RunState)
    (camId : String) : RunState :=
  let folder := indexRoot ++ [camId]
  if folder ∈ acc.fs.dirs then
    let manifest := jsonArray (sortedStrings (jpgNamesIn acc.fs folder))
    { acc with fs := acc.fs.writeFile folder "frames.json" manifest now }
  else acc

/-- Lines 122-129, the whole loop: one `manifestStep` per touched camera. -/
def rebuildManifest (indexRoot : List String) (now : Int) (st : RunState) : RunState :=
  st.touched.foldl (manifestStep indexRoot now) st

/-- The outcome of one invocation: exit status, final filesystem, touched
cameras and console log. -/
structure RunResult where
  exitCode : Nat
  fs : FS
  touched : List String
  log : List String

/-- The index root of line 123. -/
def indexRootOf (cfg : Config) : List String :=
  if cfg.noPublish then cfg.stagingDir else cfg.publishDir

/-- Render a path for console output. -/
def pathString (p : List String) : String := String.intercalate "/" p

/-- Lines 75-82: create the staging directory (and the publish directory
unless `--no-publish`), then sweep the staging root and, when publishing,
the publish root. -/
def initialFS (cfg : Config) (fs0 : FS) (now : Int) : FS :=
  let fs1 := fs0.mkdirP cfg.stagingDir
  let fs2 := if cfg.noPublish then fs1 else fs1.mkdirP cfg.publishDir
  let fs3 := purge_older_than fs2 cfg.stagingDir cfg.keepDays now
  if cfg.noPublish then fs3
  else purge_older_than fs3 cfg.publishDir cfg.keepDays now

/-- Lines 84-120: the capture loop over the flattened, limited catalog,
starting with no touched cameras and an empty log, with the run timestamp
taken once (line 90) before the loop. -/
def captureLoop (env : Env) (cfg : Config) (now : Int) (dt : DateTime)
    (catalog : List County) (fs : FS) : RunState :=
  (selectCams cfg.limit (flattenCams catalog)).foldl
    (processCam env cfg (formatTs dt) now) { fs := fs, touched := [], log := [] }

/-- `main()` (lines 26-131): resolve the catalog file, load it, create the
staging/publish directories, run the retention sweeps, capture one frame
per selected camera, rebuild the manifests and print the summary.
An unlocatable catalog exits 1 (line 59); a `json.load` failure is an
uncaught exception, which also exits with status 1. `now` is the clock in
seconds, `dt` its broken-down form used for the run timestamp. -/
def runMain (env : Env) (cfg : Config) (fs0 : FS) (now : Int) (dt : DateTime) :
    RunResult :=
  match resolveCamsFile env cfg with
  | none =>
      { exitCode := 1, fs := fs0, touched := [],
        log := ["❌ cams.json not found in any of: " ++
          String.intercalate ", " (camCandidates cfg)] }
  | some camsFile =>
    match env.parseCatalog camsFile with
    | none =>
        { exitCode := 1, fs := fs0, touched := [],
          log := ["Traceback: json.JSONDecodeError"] }
    | some catalog =>
      let st1 := captureLoop env cfg now dt catalog (initialFS cfg fs0 now)
      let st2 := rebuildManifest (indexRootOf cfg) now st1
      { exitCode := 0, fs := st2.fs, touched := st2.touched,
        log := st2.log ++ ["✅ Timelapse updated. Indexed " ++
          toString st2.touched.length ++ " cam(s) under: " ++
          pathString (indexRootOf cfg)] }

/-! ## Basic lemmas about the filesystem model -/

theorem mkdirP_files (fs : FS) (d : List String) : (fs.mkdirP d).files = fs.files := rfl

theorem writeFile_dirs (fs : FS) (d : List String) (n c : String) (m : Int) :
    (fs.writeFile d n c m).dirs = fs.dirs := rfl

theorem readFile_mkdirP (fs : FS) (p d : List String) (n : String) :
    (fs.mkdirP p).readFile d n = fs.readFile d n := rfl

theorem mkdirP_dirs_mem (fs : FS) (p q : List String) (h : q ∈ fs.dirs) :
    q ∈ (fs.mkdirP p).dirs := by
  simp only [FS.mkdirP]
  split <;> simp [h]

theorem mkdirP_dirs_self (fs : FS) (p : List String) : p ∈ (fs.mkdirP p).dirs := by
  simp only [FS.mkdirP]
  split <;> simp_all

/-- A `find?` over a filtered list agrees with `find?` over the original
when every element the search accepts also survives the filter. -/
theorem find?_filter_of_imp {α : Type} (p q : α → Bool) (l : List α)
    (h : ∀ x, p x = true → q x = true) :
    (l.filter q).find? p = l.find? p := by
  induction l with
  | nil => rfl
  | cons a l ih =>
    by_cases hp : p a = true
    · have hq := h a hp
      simp [List.filter_cons, hq, List.find?, hp]
    · have hp2 : p a = false := by revert hp; cases p a <;> simp
      by_cases hq : q a = true
      · simp [List.filter_cons, hq, List.find?, hp2, ih]
      · have hq2 : q a = false := by revert hq; cases q a <;> simp
        simp [List.filter_cons, hq2, List.find?, hp2, ih]

theorem readFile_writeFile_same (fs : FS) (d : List String) (n c : String) (m : Int) :
    (fs.writeFile d n c m).readFile d n = some c := by
  simp [FS.writeFile, FS.readFile, List.find?]

theorem readFile_writeFile_other (fs : FS) (d d2 : List String) (n n2 c : String)
    (m : Int) (h : ¬ (d2 = d ∧ n2 = n)) :
    (fs.writeFile d2 n2 c m).readFile d n = fs.readFile d n := by
  have hne : decide (d2 = d ∧ n2 = n) = false := decide_eq_false h
  simp only [FS.writeFile, FS.readFile, List.find?, hne]
  congr 1
  apply find?_filter_of_imp
  intro x hx
  simp only [decide_eq_true_eq] at hx
  simp only [decide_eq_true_eq]
  rintro ⟨h1, h2⟩
  exact h ⟨by rw [← h1, hx.1], by rw [← h2, hx.2]⟩

/-! ## C6: a negative retention setting disables the sweep -/

/-- C6: for every negative retention setting (`keep-days < 0`) and every
root directory, the retention sweep deletes zero files regardless of file
ages — `purge_older_than` is a no-op on the filesystem. -/
theorem purge_disabled_is_noop (fs : FS) (root : List String) (days now : Int)
    (h : days < 0) : purge_older_than fs root days now = fs := by
  simp [purge_older_than, h]

/-- Witness for C6: a sweep with `keep-days = -1` keeps an arbitrarily old
frame file. -/
theorem purge_disabled_is_noop_witness :
    (-1 : Int) < 0 ∧
    purge_older_than ⟨[⟨["r"], "a.jpg", "x", -999999999⟩], [["r"]]⟩ ["r"] (-1) 0 =
      ⟨[⟨["r"], "a.jpg", "x", -999999999⟩], [["r"]]⟩ :=
  ⟨by decide, purge_disabled_is_noop _ ["r"] (-1) 0 (by decide)⟩

/-! ## C3: the retention sweep deletes exactly the strictly-older frames -/

/-- C3: for a retention threshold of `days ≥ 0`, the sweep deletes exactly
the `*.jpg` files under `root` whose last-modified time is strictly older
than `now` minus `days` days; a file whose mtime equals the cutoff exactly
is retained. -/
theorem purge_deletes_strictly_older (fs : FS) (root : List String)
    (days now : Int) (f : FileEnt) (h : 0 ≤ days) :
    (f ∈ (purge_older_than fs root days now).files ↔
      f ∈ fs.files ∧ ¬ (root.isPrefixOf f.dir = true ∧ isJpgName f.name = true ∧
        f.mtime < now - days * 86400)) ∧
    (f.mtime = now - days * 86400 →
      (f ∈ (purge_older_than fs root days now).files ↔ f ∈ fs.files)) := by
  have hnl : ¬ days < 0 := not_lt.mpr h
  constructor
  · simp only [purge_older_than, hnl, if_false, List.mem_filter,
      decide_eq_true_eq, and_congr_right_iff]
  · intro hb
    simp [purge_older_than, hnl, List.mem_filter, hb]

/-- Witness for C3: with a zero-day window at time 0, a frame with mtime
-1 is deleted, and a frame exactly at the cutoff (mtime 0) is retained. -/
theorem purge_deletes_strictly_older_witness :
    (0 : Int) ≤ 0 ∧
    ((⟨["r"], "old.jpg", "x", -1⟩ : FileEnt) ∈
        (purge_older_than ⟨[⟨["r"], "old.jpg", "x", -1⟩, ⟨["r"], "new.jpg", "x", 0⟩], []⟩
          ["r"] 0 0).files ↔ False) ∧
    ((⟨["r"], "new.jpg", "x", 0⟩ : FileEnt) ∈
        (purge_older_than ⟨[⟨["r"], "old.jpg", "x", -1⟩, ⟨["r"], "new.jpg", "x", 0⟩], []⟩
          ["r"] 0 0).files ↔
      (⟨["r"], "new.jpg", "x", 0⟩ : FileEnt) ∈
        (⟨[⟨["r"], "old.jpg", "x", -1⟩, ⟨["r"], "new.jpg", "x", 0⟩], []⟩ : FS).files) := by
  refine ⟨le_refl 0, ?_, ?_⟩
  · rw [(purge_deletes_strictly_older
      ⟨[⟨["r"], "old.jpg", "x", -1⟩, ⟨["r"], "new.jpg", "x", 0⟩], []⟩
      ["r"] 0 0 ⟨["r"], "old.jpg", "x", -1⟩ (by decide)).1]
    decide
  · exact (purge_deletes_strictly_older
      ⟨[⟨["r"], "old.jpg", "x", -1⟩, ⟨["r"], "new.jpg", "x", 0⟩], []⟩
      ["r"] 0 0 ⟨["r"], "new.jpg", "x", 0⟩ (by decide)).2 (by decide)

/-! ## C5 and C9: entries failing field validation are skipped untouched -/

/-- An entry that fails the line-96 truthiness check leaves the whole
run state (filesystem, touched set and log) unchanged. -/
theorem processCam_skips_invalid (env : Env) (cfg : Config) (ts : String)
    (now : Int) (st : RunState) (cam : Cam) (h : camValid cam = false) :
    processCam env cfg ts now st cam = st := by
  simp [processCam, h]

/-- C5: a camera entry missing the `id` field or the `stream` field is
skipped before any capture attempt — the state is unchanged (no file
written, no directory created, nothing logged) and the loop goes on to
process exactly the remaining entries. -/
theorem missing_field_entry_skipped (env : Env) (cfg : Config) (ts : String)
    (now : Int) (st : RunState) (cam : Cam) (rest : List Cam)
    (h : cam.id = none ∨ cam.stream = none) :
    processCam env cfg ts now st cam = st ∧
    (cam :: rest).foldl (processCam env cfg ts now) st =
      rest.foldl (processCam env cfg ts now) st := by
  have hv : camValid cam = false := by
    rcases h with h | h <;> simp [camValid, h, strOptTruthy]
  refine ⟨processCam_skips_invalid env cfg ts now st cam hv, ?_⟩
  simp [List.foldl_cons, processCam_skips_invalid env cfg ts now st cam hv]

/-- Witness for C5: an entry with no `id` is skipped and the loop moves on. -/
theorem missing_field_entry_skipped_witness :
    ((⟨none, some "s"⟩ : Cam).id = none ∨ (⟨none, some "s"⟩ : Cam).stream = none) ∧
    processCam ⟨id, fun _ => true, fun _ => none, fun _ => true⟩
      ⟨none, true, 14, "2", "cams.json", ".", ["stage"], ["pub"]⟩
      "t" 0 ⟨⟨[], []⟩, [], []⟩ ⟨none, some "s"⟩ = ⟨⟨[], []⟩, [], []⟩ :=
  ⟨Or.inl rfl,
    (missing_field_entry_skipped ⟨id, fun _ => true, fun _ => none, fun _ => true⟩
      ⟨none, true, 14, "2", "cams.json", ".", ["stage"], ["pub"]⟩
      "t" 0 ⟨⟨[], []⟩, [], []⟩ ⟨none, some "s"⟩ [] (Or.inl rfl)).1⟩

/-- C9: a camera entry whose `id` or `stream` field is present but the
empty string (Python-falsy) is skipped exactly like an absent field: the
state is unchanged and the loop continues with the remaining entries. -/
theorem empty_field_entry_skipped (env : Env) (cfg : Config) (ts : String)
    (now : Int) (st : RunState) (cam : Cam) (rest : List Cam)
    (h : cam.id = some "" ∨ cam.stream = some "") :
    processCam env cfg ts now st cam = st ∧
    (cam :: rest).foldl (processCam env cfg ts now) st =
      rest.foldl (processCam env cfg ts now) st := by
  have hv : camValid cam = false := by
    rcases h with h | h <;>
      simp [camValid, h, strOptTruthy, show "".isEmpty = true from rfl]
  refine ⟨processCam_skips_invalid env cfg ts now st cam hv, ?_⟩
  simp [List.foldl_cons, processCam_skips_invalid env cfg ts now st cam hv]

/-- Witness for C9: an entry whose `stream` is the empty string is skipped. -/
theorem empty_field_entry_skipped_witness :
    ((⟨some "cam1", some ""⟩ : Cam).id = some "" ∨
      (⟨some "cam1", some ""⟩ : Cam).stream = some "") ∧
    processCam ⟨id, fun _ => true, fun _ => none, fun _ => true⟩
      ⟨none, true, 14, "2", "cams.json", ".", ["stage"], ["pub"]⟩
      "t" 0 ⟨⟨[], []⟩, [], []⟩ ⟨some "cam1", some ""⟩ = ⟨⟨[], []⟩, [], []⟩ :=
  ⟨Or.inr rfl,
    (empty_field_entry_skipped ⟨id, fun _ => true, fun _ => none, fun _ => true⟩
      ⟨none, true, 14, "2", "cams.json", ".", ["stage"], ["pub"]⟩
      "t" 0 ⟨⟨[], []⟩, [], []⟩ ⟨some "cam1", some ""⟩ [] (Or.inr rfl)).1⟩

/-! ## C4: one camera's capture failure never aborts the run -/

/-- C4: when ffmpeg exits non-zero for a valid camera entry, the failure
is logged with the camera identifier and stream URL, no file is written at
all (in particular no publish copy), the camera is not recorded as
touched, and the loop continues with exactly the remaining cameras. -/
theorem capture_failure_isolated (env : Env) (cfg : Config) (ts : String)
    (now : Int) (st : RunState) (cam : Cam) (rest : List Cam)
    (hv : camValid cam = true)
    (hf : env.captureOk (cam.stream.getD "") = false) :
    (processCam env cfg ts now st cam).touched = st.touched ∧
    (processCam env cfg ts now st cam).fs.files = st.fs.files ∧
    (processCam env cfg ts now st cam).log = st.log ++
      ["🎥 Capturing " ++ cam.id.getD "" ++ "…",
       "❌ Failed to capture " ++ cam.id.getD "" ++ " (" ++ cam.stream.getD "" ++ ")"] ∧
    (cam :: rest).foldl (processCam env cfg ts now) st =
      rest.foldl (processCam env cfg ts now) (processCam env cfg ts now st cam) := by
  refine ⟨?_, ?_, ?_, by simp [List.foldl_cons]⟩ <;>
    simp [processCam, hv, hf, mkdirP_files]

/-- Witness for C4: a failing stream leaves the state untouched apart
from the two log lines, and processing continues. -/
theorem capture_failure_isolated_witness :
    camValid ⟨some "cam1", some "s1"⟩ = true ∧
    (⟨id, fun _ => true, fun _ => none, fun _ => false⟩ : Env).captureOk
      ((⟨some "cam1", some "s1"⟩ : Cam).stream.getD "") = false ∧
    (processCam ⟨id, fun _ => true, fun _ => none, fun _ => false⟩
        ⟨none, true, 14, "2", "cams.json", ".", ["stage"], ["pub"]⟩
        "t" 0 ⟨⟨[], []⟩, [], []⟩ ⟨some "cam1", some "s1"⟩).touched = [] ∧
    (processCam ⟨id, fun _ => true, fun _ => none, fun _ => false⟩
        ⟨none, true, 14, "2", "cams.json", ".", ["stage"], ["pub"]⟩
        "t" 0 ⟨⟨[], []⟩, [], []⟩ ⟨some "cam1", some "s1"⟩).fs.files = [] := by
  have h := capture_failure_isolated
    ⟨id, fun _ => true, fun _ => none, fun _ => false⟩
    ⟨none, true, 14, "2", "cams.json", ".", ["stage"], ["pub"]⟩
    "t" 0 ⟨⟨[], []⟩, [], []⟩ ⟨some "cam1", some "s1"⟩ [] (by decide) rfl
  exact ⟨by decide, rfl, h.1, h.2.1⟩

/-! ## C2: capture-limit semantics -/

/-- A console line announcing a capture attempt (line 107 of the script). -/
def isAttemptLine (s : String) : Bool :=
  List.isPrefixOf "🎥 Capturing ".data s.data

/-- How many capture attempts a console log records. -/
def captureAttempts (log : List String) : Nat :=
  (log.filter isAttemptLine).length

theorem attemptLine_true (x y : String) :
    isAttemptLine ("🎥 Capturing " ++ x ++ y) = true := by
  simp [isAttemptLine, String.data_append, List.isPrefixOf_iff_prefix,
    ← List.append_assoc, List.prefix_append]

theorem attemptLine_saved_false (x y z : String) :
    isAttemptLine ("✅ Saved " ++ x ++ y ++ z) = false := by
  simp only [isAttemptLine, String.data_append]
  simp [List.isPrefixOf]

theorem attemptLine_published_false (x y z : String) :
    isAttemptLine ("➡️  Published to " ++ x ++ y ++ z) = false := by
  simp only [isAttemptLine, String.data_append]
  simp [List.isPrefixOf]

theorem attemptLine_failed_false (x y z w : String) :
    isAttemptLine ("❌ Failed to capture " ++ x ++ y ++ z ++ w) = false := by
  simp only [isAttemptLine, String.data_append]
  simp [List.isPrefixOf]

/-- Each loop iteration logs exactly one capture attempt when the entry is
valid and none when it is skipped. -/
theorem processCam_attempts (env : Env) (cfg : Config) (ts : String)
    (now : Int) (st : RunState) (cam : Cam) :
    captureAttempts ((processCam env cfg ts now st cam).log) =
      captureAttempts st.log + (if camValid cam then 1 else 0) := by
  by_cases hv : camValid cam = true
  · simp only [processCam, hv, not_true, if_neg, ite_false, if_true, ite_true]
    by_cases hc : env.captureOk (cam.stream.getD "") = true
    · by_cases hp : cfg.noPublish = true
      · simp [hv, hc, hp, captureAttempts, List.filter_append,
          attemptLine_true, attemptLine_saved_false]
      · simp [hv, hc, hp, captureAttempts, List.filter_append,
          attemptLine_true, attemptLine_saved_false, attemptLine_published_false]
    · simp [hv, hc, captureAttempts, List.filter_append,
        attemptLine_true, attemptLine_failed_false]
  · have hv2 : camValid cam = false := by revert hv; cases camValid cam <;> simp
    simp [processCam_skips_invalid env cfg ts now st cam hv2, hv2]

/-- The capture loop over a camera list logs exactly one attempt per
entry passing field validation. -/
theorem fold_attempts (env : Env) (cfg : Config) (ts : String) (now : Int)
    (cams : List Cam) (st : RunState) :
    captureAttempts ((cams.foldl (processCam env cfg ts now) st).log) =
      captureAttempts st.log + (cams.filter camValid).length := by
  induction cams generalizing st with
  | nil => simp
  | cons a l ih =>
    simp only [List.foldl_cons, ih, processCam_attempts, List.filter_cons]
    by_cases hv : camValid a = true
    · simp [hv]
      omega
    · have hv2 : camValid a = false := by revert hv; cases camValid a <;> simp
      simp [hv2]

/-- C2: with a capture limit `n ≥ 0`, exactly the first `n` entries of the
flattened catalog are selected (all of them when `n` reaches past the end);
the limit is applied after flattening and before field validation, so the
number of capture attempts is the number of valid entries among the first
`n` — an invalid entry inside the window still consumes a limit slot; a
limit that is omitted or negative places no bound. -/
theorem capture_limit_semantics (catalog : List County) (n : Int)
    (env : Env) (cfg : Config) (ts : String) (now : Int) (st : RunState)
    (hn : 0 ≤ n) :
    selectCams (some n) (flattenCams catalog) = (flattenCams catalog).take n.toNat ∧
    (n.toNat ≤ (flattenCams catalog).length →
      (selectCams (some n) (flattenCams catalog)).length = n.toNat) ∧
    selectCams none (flattenCams catalog) = flattenCams catalog ∧
    (∀ m : Int, m < 0 → selectCams (some m) (flattenCams catalog) = flattenCams catalog) ∧
    captureAttempts (((selectCams (some n) (flattenCams catalog)).foldl
        (processCam env cfg ts now) st).log) =
      captureAttempts st.log +
        (((flattenCams catalog).take n.toNat).filter camValid).length := by
  refine ⟨by simp [selectCams, hn], ?_, rfl, ?_, ?_⟩
  · intro h
    simp [selectCams, hn, List.length_take]
    omega
  · intro m hm
    simp [selectCams, not_le.mpr hm]
  · simp [selectCams, hn, fold_attempts]

/-- Witness for C2: limit 2 on a three-entry catalog whose second entry is
invalid selects the first two entries and attempts exactly one capture —
the invalid entry consumed a limit slot, the valid third entry was never
considered. -/
theorem capture_limit_semantics_witness :
    (0 : Int) ≤ 2 ∧
    selectCams (some 2) (flattenCams
        [⟨[⟨some "a", some "sa"⟩, ⟨none, some "sb"⟩, ⟨some "c", some "sc"⟩]⟩]) =
      [⟨some "a", some "sa"⟩, ⟨none, some "sb"⟩] ∧
    captureAttempts (((selectCams (some 2) (flattenCams
        [⟨[⟨some "a", some "sa"⟩, ⟨none, some "sb"⟩, ⟨some "c", some "sc"⟩]⟩])).foldl
          (processCam ⟨id, fun _ => true, fun _ => none, fun _ => true⟩
            ⟨some 2, true, 14, "2", "cams.json", ".", ["stage"], ["pub"]⟩ "t" 0)
          ⟨⟨[], []⟩, [], []⟩).log) = 1 := by
  have h := capture_limit_semantics
    [⟨[⟨some "a", some "sa"⟩, ⟨none, some "sb"⟩, ⟨some "c", some "sc"⟩]⟩] 2
    ⟨id, fun _ => true, fun _ => none, fun _ => true⟩
    ⟨some 2, true, 14, "2", "cams.json", ".", ["stage"], ["pub"]⟩ "t" 0
    ⟨⟨[], []⟩, [], []⟩ (by decide)
  exact ⟨by decide, h.1.trans (by decide), (h.2.2.2.2).trans (by decide)⟩

/-! ## C7: catalog resolution and exit behaviour -/

/-- `find?` returns the first element satisfying the predicate: any
decomposition whose earlier elements all fail and whose pivot succeeds
pins the result. -/
theorem find?_first {α : Type} (p : α → Bool) (pre : List α) (c : α)
    (post : List α) (hpre : ∀ x ∈ pre, p x = false) (hc : p c = true) :
    (pre ++ c :: post).find? p = some c := by
  induction pre with
  | nil => simp [List.find?, hc]
  | cons a l ih =>
    have ha := hpre a (by simp)
    simp only [List.cons_append, List.find?, ha]
    exact ih (fun x hx => hpre x (by simp [hx]))

/-- C7: the catalog file is resolved by taking the first of the fixed
candidate list whose (expanded) path exists; when no candidate exists the
run exits 1 after the diagnostic message; when the catalog is found and
parses, the run exits 0 and its last console line is the summary with the
count of indexed cameras and the index root — whatever the capture
outcomes were. -/
theorem catalog_resolution_and_exit (env : Env) (cfg : Config) (fs0 : FS)
    (now : Int) (dt : DateTime) :
    (∀ pre c post, camCandidates cfg = pre ++ c :: post →
      (∀ c2 ∈ pre, env.pathExists (env.expand c2) = false) →
      env.pathExists (env.expand c) = true →
      resolveCamsFile env cfg = some (env.expand c)) ∧
    ((∀ c ∈ camCandidates cfg, env.pathExists (env.expand c) = false) →
      resolveCamsFile env cfg = none ∧
      (runMain env cfg fs0 now dt).exitCode = 1 ∧
      (runMain env cfg fs0 now dt).log =
        ["❌ cams.json not found in any of: " ++
          String.intercalate ", " (camCandidates cfg)]) ∧
    (∀ p catalog, resolveCamsFile env cfg = some p →
      env.parseCatalog p = some catalog →
      (runMain env cfg fs0 now dt).exitCode = 0 ∧
      (runMain env cfg fs0 now dt).log.getLast? =
        some ("✅ Timelapse updated. Indexed " ++
          toString (runMain env cfg fs0 now dt).touched.length ++
          " cam(s) under: " ++ pathString (indexRootOf cfg))) := by
  refine ⟨?_, ?_, ?_⟩
  · intro pre c post hdec hpre hc
    simp only [resolveCamsFile, hdec]
    rw [find?_first _ pre c post (fun x hx => by simp [hpre x hx]) (by simp [hc])]
    rfl
  · intro hall
    have hnone : resolveCamsFile env cfg = none := by
      have hf : (camCandidates cfg).find? (fun c => env.pathExists (env.expand c))
          = none := by
        rw [List.find?_eq_none]
        intro x hx
        simp [hall x hx]
      simp [resolveCamsFile, hf]
    exact ⟨hnone, by simp [runMain, hnone], by simp [runMain, hnone]⟩
  · intro p catalog hres hcat
    simp [runMain, hres, hcat]

/-- Witness for C7: the first candidate does not exist, so the second one
is used; with a catalog that parses to no cameras and a failing capture
tool the run still exits 0, with the summary as the last line. -/
theorem catalog_resolution_and_exit_witness :
    resolveCamsFile ⟨id, fun p => p == "./cams.json", fun _ => some [], fun _ => false⟩
      ⟨none, true, 14, "2", "mycams.json", ".", ["stage"], ["pub"]⟩ =
      some "./cams.json" ∧
    (runMain ⟨id, fun p => p == "./cams.json", fun _ => some [], fun _ => false⟩
      ⟨none, true, 14, "2", "mycams.json", ".", ["stage"], ["pub"]⟩
      ⟨[], []⟩ 0 ⟨2024, 1, 2, 3, 4, 5⟩).exitCode = 0 ∧
    (runMain ⟨id, fun p => p == "./cams.json", fun _ => some [], fun _ => false⟩
      ⟨none, true, 14, "2", "mycams.json", ".", ["stage"], ["pub"]⟩
      ⟨[], []⟩ 0 ⟨2024, 1, 2, 3, 4, 5⟩).touched = [] ∧
    (runMain ⟨id, fun p => p == "./cams.json", fun _ => some [], fun _ => false⟩
      ⟨none, true, 14, "2", "mycams.json", ".", ["stage"], ["pub"]⟩
      ⟨[], []⟩ 0 ⟨2024, 1, 2, 3, 4, 5⟩).log.getLast? =
      some "✅ Timelapse updated. Indexed 0 cam(s) under: stage" := by
  have h := catalog_resolution_and_exit
    ⟨id, fun p => p == "./cams.json", fun _ => some [], fun _ => false⟩
    ⟨none, true, 14, "2", "mycams.json", ".", ["stage"], ["pub"]⟩
    ⟨[], []⟩ 0 ⟨2024, 1, 2, 3, 4, 5⟩
  have h1 := h.1 ["mycams.json"] "./cams.json" ["./cams.json", "/cams.json"]
    (by decide) (by decide) (by decide)
  have h3 := h.2.2 "./cams.json" [] h1 rfl
  exact ⟨h1, h3.1, by decide, h3.2.trans (by decide)⟩

/-! ## C8: the frame timestamp is computed once per run -/

/-- The shape `YYYY-MM-DDTHH-MM-SS`: 19 characters, decimal digits except
for the fixed separators. -/
def matchesTsPattern (s : String) : Bool :=
  match s.data with
  | [y1, y2, y3, y4, c1, o1, o2, c2, d1, d2, c3, h1, h2, c4, i1, i2, c5, s1, s2] =>
    y1.isDigit && y2.isDigit && y3.isDigit && y4.isDigit && c1 = '-' &&
    o1.isDigit && o2.isDigit && c2 = '-' && d1.isDigit && d2.isDigit &&
    c3 = 'T' && h1.isDigit && h2.isDigit && c4 = '-' && i1.isDigit &&
    i2.isDigit && c5 = '-' && s1.isDigit && s2.isDigit
  | _ => false

theorem digitChar_isDigit (n : Nat) : (digitChar n).isDigit = true := by
  have h : n % 10 < 10 := Nat.mod_lt _ (by norm_num)
  have h10 : n % 10 = 0 ∨ n % 10 = 1 ∨ n % 10 = 2 ∨ n % 10 = 3 ∨ n % 10 = 4 ∨
      n % 10 = 5 ∨ n % 10 = 6 ∨ n % 10 = 7 ∨ n % 10 = 8 ∨ n % 10 = 9 := by omega
  unfold digitChar
  rcases h10 with h | h | h | h | h | h | h | h | h | h <;> rw [h] <;> decide

/-- The run timestamp always has the `YYYY-MM-DDTHH-MM-SS` shape. -/
theorem formatTs_matches (dt : DateTime) : matchesTsPattern (formatTs dt) = true := by
  simp [formatTs, pad4, pad2, matchesTsPattern, digitChar_isDigit]

/-! Membership lemmas tracking which filenames each phase can create. -/

theorem mem_files_writeFile {f : FileEnt} (fs : FS) (d : List String)
    (n c : String) (m : Int) (h : f ∈ (fs.writeFile d n c m).files) :
    f.name = n ∨ f ∈ fs.files := by
  simp only [FS.writeFile, List.mem_cons, List.mem_filter] at h
  rcases h with rfl | h
  · exact Or.inl rfl
  · exact Or.inr h.1

theorem mem_files_purge {f : FileEnt} (fs : FS) (root : List String)
    (days now : Int) (h : f ∈ (purge_older_than fs root days now).files) :
    f ∈ fs.files := by
  unfold purge_older_than at h
  split at h
  · exact h
  · exact (List.mem_filter.mp h).1

theorem mem_files_processCam {f : FileEnt} (env : Env) (cfg : Config)
    (ts : String) (now : Int) (st : RunState) (cam : Cam)
    (h : f ∈ (processCam env cfg ts now st cam).fs.files) :
    f ∈ st.fs.files ∨ f.name = ts ++ ".jpg" := by
  unfold processCam at h
  split at h
  · exact Or.inl h
  · simp only at h
    split at h
    · split at h
      · simp only at h
        rcases mem_files_writeFile _ _ _ _ _ h with hn | hm
        · exact Or.inr hn
        · exact Or.inl hm
      · simp only at h
        rcases mem_files_writeFile _ _ _ _ _ h with hn | hm
        · exact Or.inr hn
        · rcases mem_files_writeFile _ _ _ _ _ hm with hn | hm2
          · exact Or.inr hn
          · exact Or.inl hm2
    · exact Or.inl h

theorem mem_files_captureFold {f : FileEnt} (env : Env) (cfg : Config)
    (ts : String) (now : Int) (cams : List Cam) (st : RunState)
    (h : f ∈ (cams.foldl (processCam env cfg ts now) st).fs.files) :
    f ∈ st.fs.files ∨ f.name = ts ++ ".jpg" := by
  induction cams generalizing st with
  | nil => exact Or.inl h
  | cons a l ih =>
    rw [List.foldl_cons] at h
    rcases ih _ h with hm | hn
    · exact mem_files_processCam env cfg ts now st a hm
    · exact Or.inr hn

theorem mem_files_manifestStep {f : FileEnt} (r : List String) (now : Int)
    (st : RunState) (camId : String)
    (h : f ∈ (manifestStep r now st camId).fs.files) :
    f ∈ st.fs.files ∨ f.name = "frames.json" := by
  simp only [manifestStep] at h
  split at h
  · simp only at h
    rcases mem_files_writeFile _ _ _ _ _ h with hn | hm
    · exact Or.inr hn
    · exact Or.inl hm
  · exact Or.inl h

theorem mem_files_manifestFold {f : FileEnt} (r : List String) (now : Int)
    (ids : List String) (st : RunState)
    (h : f ∈ (ids.foldl (manifestStep r now) st).fs.files) :
    f ∈ st.fs.files ∨ f.name = "frames.json" := by
  induction ids generalizing st with
  | nil => exact Or.inl h
  | cons a l ih =>
    rw [List.foldl_cons] at h
    rcases ih _ h with hm | hn
    · exact mem_files_manifestStep r now st a hm
    · exact Or.inr hn

/-- The directory creations and retention sweeps before the capture loop
never add files. -/
theorem mem_files_initialFS {f : FileEnt} (cfg : Config) (fs0 : FS) (now : Int)
    (h : f ∈ (initialFS cfg fs0 now).files) : f ∈ fs0.files := by
  by_cases hp : cfg.noPublish = true
  · simp only [initialFS, if_pos hp] at h
    have h3 := mem_files_purge _ _ _ _ h
    rwa [mkdirP_files] at h3
  · simp only [initialFS, if_neg hp] at h
    have h4 := mem_files_purge _ _ _ _ h
    have h3 := mem_files_purge _ _ _ _ h4
    rwa [mkdirP_files, mkdirP_files] at h3

/-- C8: the frame-file timestamp is computed once, before the capture
loop: every `*.jpg` file a run adds to the filesystem — staged or
published, whichever camera it belongs to — is named with the single run
timestamp `formatTs dt`, and that timestamp has the
`YYYY-MM-DDTHH-MM-SS` shape. -/
theorem timestamp_once_per_run (env : Env) (cfg : Config) (fs0 : FS)
    (now : Int) (dt : DateTime) (f : FileEnt)
    (hf : f ∈ (runMain env cfg fs0 now dt).fs.files)
    (hnew : f ∉ fs0.files) (hjpg : isJpgName f.name = true) :
    f.name = formatTs dt ++ ".jpg" ∧ matchesTsPattern (formatTs dt) = true := by
  refine ⟨?_, formatTs_matches dt⟩
  simp only [runMain, rebuildManifest] at hf
  split at hf
  · exact absurd hf hnew
  · split at hf
    · exact absurd hf hnew
    · rcases mem_files_manifestFold _ _ _ _ hf with hm | hn
      · rcases mem_files_captureFold _ _ _ _ _ _ hm with hm2 | hn2
        · exact absurd (mem_files_initialFS cfg fs0 now hm2) hnew
        · exact hn2
      · rw [hn] at hjpg
        exact absurd hjpg (by decide)

/-- Witness for C8: in a successful one-camera run the staged frame file
is named by the run timestamp and matches the timestamp pattern. -/
theorem timestamp_once_per_run_witness :
    ((⟨["stage", "cam1"], "2024-01-02T03-04-05.jpg", "frame:s1", 1000⟩ : FileEnt) ∈
      (runMain ⟨id, fun _ => true,
          fun _ => some [⟨[⟨some "cam1", some "s1"⟩]⟩], fun _ => true⟩
        ⟨none, true, 14, "2", "cams.json", ".", ["stage"], ["pub"]⟩
        ⟨[], []⟩ 1000 ⟨2024, 1, 2, 3, 4, 5⟩).fs.files) ∧
    (⟨["stage", "cam1"], "2024-01-02T03-04-05.jpg", "frame:s1", 1000⟩ : FileEnt).name =
      formatTs ⟨2024, 1, 2, 3, 4, 5⟩ ++ ".jpg" ∧
    matchesTsPattern (formatTs ⟨2024, 1, 2, 3, 4, 5⟩) = true := by
  have h := timestamp_once_per_run
    ⟨id, fun _ => true, fun _ => some [⟨[⟨some "cam1", some "s1"⟩]⟩], fun _ => true⟩
    ⟨none, true, 14, "2", "cams.json", ".", ["stage"], ["pub"]⟩
    ⟨[], []⟩ 1000 ⟨2024, 1, 2, 3, 4, 5⟩
    ⟨["stage", "cam1"], "2024-01-02T03-04-05.jpg", "frame:s1", 1000⟩
    (by decide) (by decide) (by decide)
  exact ⟨by decide, h.1, h.2⟩

/-! ## Ordering lemmas for the manifest sort -/

theorem charListLe_total (as bs : List Char) :
    charListLe as bs = true ∨ charListLe bs as = true := by
  induction as generalizing bs with
  | nil => exact Or.inl rfl
  | cons a as ih =>
    cases bs with
    | nil => exact Or.inr rfl
    | cons b bs =>
      rcases Nat.lt_trichotomy a.toNat b.toNat with h | h | h
      · exact Or.inl (by simp [charListLe, h])
      · have h1 : ¬ a.toNat < b.toNat := by omega
        have h2 : ¬ b.toNat < a.toNat := by omega
        rcases ih bs with hl | hr
        · exact Or.inl (by simp [charListLe, h1, h2, hl])
        · exact Or.inr (by simp [charListLe, h1, h2, hr])
      · exact Or.inr (by simp [charListLe, h])

theorem charListLe_trans (as bs cs : List Char) (h1 : charListLe as bs = true)
    (h2 : charListLe bs cs = true) : charListLe as cs = true := by
  induction as generalizing bs cs with
  | nil => rfl
  | cons a as ih =>
    cases bs with
    | nil => simp [charListLe] at h1
    | cons b bs =>
      cases cs with
      | nil => simp [charListLe] at h2
      | cons c cs =>
        by_cases hab : a.toNat < b.toNat <;> by_cases hbc : b.toNat < c.toNat
        · simp [charListLe, show a.toNat < c.toNat by omega]
        · by_cases hcb : c.toNat < b.toNat
          · simp [charListLe, hbc, hcb] at h2
          · have hbc2 : b.toNat = c.toNat := by omega
            simp [charListLe, show a.toNat < c.toNat by omega]
        · by_cases hba : b.toNat < a.toNat
          · simp [charListLe, hab, hba] at h1
          · have hab2 : a.toNat = b.toNat := by omega
            simp [charListLe, show a.toNat < c.toNat by omega]
        · by_cases hba : b.toNat < a.toNat
          · simp [charListLe, hab, hba] at h1
          · by_cases hcb : c.toNat < b.toNat
            · simp [charListLe, hbc, hcb] at h2
            · have hab2 : a.toNat = b.toNat := by omega
              have hbc2 : b.toNat = c.toNat := by omega
              have hac1 : ¬ a.toNat < c.toNat := by omega
              have hac2 : ¬ c.toNat < a.toNat := by omega
              simp only [charListLe, hab, hba, if_neg, ite_false] at h1
              simp only [charListLe, hbc, hcb, if_neg, ite_false] at h2
              simp only [charListLe, hac1, hac2, if_neg, ite_false]
              exact ih bs cs h1 h2

theorem strLeb_total (a b : String) : strLeb a b = true ∨ strLeb b a = true :=
  charListLe_total a.data b.data

theorem strLeb_trans (a b c : String) (h1 : strLeb a b = true)
    (h2 : strLeb b c = true) : strLeb a c = true :=
  charListLe_trans a.data b.data c.data h1 h2

theorem insertSorted_perm (x : String) (l : List String) :
    List.Perm (insertSorted x l) (x :: l) := by
  induction l with
  | nil => rfl
  | cons y ys ih =>
    simp only [insertSorted]
    split
    · rfl
    · exact (ih.cons y).trans (List.Perm.swap x y ys)

theorem sortedStrings_perm (l : List String) : List.Perm (sortedStrings l) l := by
  induction l with
  | nil => rfl
  | cons a l ih =>
    have : sortedStrings (a :: l) = insertSorted a (sortedStrings l) := rfl
    rw [this]
    exact (insertSorted_perm a (sortedStrings l)).trans (ih.cons a)

theorem mem_insertSorted (x y : String) (l : List String)
    (h : y ∈ insertSorted x l) : y = x ∨ y ∈ l :=
  List.mem_cons.mp ((insertSorted_perm x l).mem_iff.mp h)

theorem insertSorted_pairwise (x : String) (l : List String)
    (h : List.Pairwise (fun a b => strLeb a b = true) l) :
    List.Pairwise (fun a b => strLeb a b = true) (insertSorted x l) := by
  induction l with
  | nil => simp [insertSorted]
  | cons y ys ih =>
    rcases List.pairwise_cons.mp h with ⟨hy, hys⟩
    simp only [insertSorted]
    split
    · rename_i hxy
      refine List.pairwise_cons.mpr ⟨?_, h⟩
      intro z hz
      rcases List.mem_cons.mp hz with rfl | hz2
      · exact hxy
      · exact strLeb_trans x y z hxy (hy z hz2)
    · rename_i hxy
      refine List.pairwise_cons.mpr ⟨?_, ih hys⟩
      intro z hz
      rcases mem_insertSorted x z ys hz with hzx | hz2
      · subst hzx
        rcases strLeb_total z y with hl | hr
        · exact absurd hl hxy
        · exact hr
      · exact hy z hz2

theorem sortedStrings_pairwise (l : List String) :
    List.Pairwise (fun a b => strLeb a b = true) (sortedStrings l) := by
  induction l with
  | nil => simp [sortedStrings]
  | cons a l ih => exact insertSorted_pairwise a (sortedStrings l) ih

/-! ## Manifest rebuild lemmas -/

theorem manifestStep_dirs (r : List String) (now : Int) (st : RunState)
    (c : String) : (manifestStep r now st c).fs.dirs = st.fs.dirs := by
  simp only [manifestStep]
  split <;> rfl

theorem manifestStep_touched (r : List String) (now : Int) (st : RunState)
    (c : String) : (manifestStep r now st c).touched = st.touched := by
  simp only [manifestStep]
  split <;> rfl

theorem manifestFold_dirs (r : List String) (now : Int) (ids : List String)
    (st : RunState) :
    ((ids.foldl (manifestStep r now) st).fs.dirs) = st.fs.dirs := by
  induction ids generalizing st with
  | nil => rfl
  | cons a rest ih => rw [List.foldl_cons, ih, manifestStep_dirs]

theorem manifestFold_touched (r : List String) (now : Int) (ids : List String)
    (st : RunState) :
    ((ids.foldl (manifestStep r now) st).touched) = st.touched := by
  induction ids generalizing st with
  | nil => rfl
  | cons a rest ih => rw [List.foldl_cons, ih, manifestStep_touched]

/-- Writing a non-`*.jpg` file never changes a directory listing of
`*.jpg` files. -/
theorem jpgNamesIn_writeFile_nonjpg (fs : FS) (d : List String) (n c : String)
    (m : Int) (folder : List String) (hn : isJpgName n = false) :
    jpgNamesIn (fs.writeFile d n c m) folder = jpgNamesIn fs folder := by
  simp only [jpgNamesIn, FS.writeFile]
  have hhead : (decide ((⟨d, n, c, m⟩ : FileEnt).dir = folder ∧
      isJpgName (⟨d, n, c, m⟩ : FileEnt).name = true)) = false := by
    simp [hn]
  rw [List.filter_cons_of_neg (by simp [hn]), List.filter_filter]
  congr 1
  apply List.filter_congr
  intro a _
  by_cases hA : (a.dir = folder ∧ isJpgName a.name = true)
  · have hq : ¬ (a.dir = d ∧ a.name = n) := by
      rintro ⟨_, hname⟩
      rw [hname] at hA
      rw [hA.2] at hn
      exact Bool.true_eq_false.mp hn
    simp [hA, hq]
    rcases Decidable.em (folder = d) with hfd | hfd
    · exact Or.inr (fun hn2 => hq ⟨hA.1.trans hfd, hn2⟩)
    · exact Or.inl hfd
  · simp [hA]

theorem jpgNamesIn_manifestStep (r : List String) (now : Int) (st : RunState)
    (c : String) (folder : List String) :
    jpgNamesIn (manifestStep r now st c).fs folder = jpgNamesIn st.fs folder := by
  simp only [manifestStep]
  split
  · exact jpgNamesIn_writeFile_nonjpg _ _ _ _ _ _ (by decide)
  · rfl

theorem jpgNamesIn_manifestFold (r : List String) (now : Int)
    (ids : List String) (st : RunState) (folder : List String) :
    jpgNamesIn ((ids.foldl (manifestStep r now) st).fs) folder =
      jpgNamesIn st.fs folder := by
  induction ids generalizing st with
  | nil => rfl
  | cons a rest ih => rw [List.foldl_cons, ih, jpgNamesIn_manifestStep]

theorem readFile_manifestStep_other (r : List String) (now : Int)
    (st : RunState) (c camId : String) (hne : c ≠ camId) :
    (manifestStep r now st c).fs.readFile (r ++ [camId]) "frames.json" =
      st.fs.readFile (r ++ [camId]) "frames.json" := by
  simp only [manifestStep]
  split
  · apply readFile_writeFile_other
    rintro ⟨hd, _⟩
    have := List.append_cancel_left hd
    simp only [List.cons.injEq, and_true] at this
    exact hne this
  · rfl

theorem readFile_manifestFold_notin (r : List String) (now : Int)
    (ids : List String) (st : RunState) (camId : String) (h : camId ∉ ids) :
    ((ids.foldl (manifestStep r now) st).fs.readFile (r ++ [camId]) "frames.json") =
      st.fs.readFile (r ++ [camId]) "frames.json" := by
  induction ids generalizing st with
  | nil => rfl
  | cons a rest ih =>
    have hna : a ≠ camId := fun he => h (by simp [he])
    have hrest : camId ∉ rest := fun he => h (by simp [he])
    rw [List.foldl_cons, ih _ hrest, readFile_manifestStep_other r now st a camId hna]

/-- The heart of C1: after the manifest loop, the manifest of any camera
in the iterated id list whose folder exists holds exactly the sorted
`*.jpg` listing of that folder in the final filesystem. -/
theorem manifestFold_content (r : List String) (now : Int) (ids : List String) :
    ∀ (st : RunState) (camId : String), camId ∈ ids →
    (r ++ [camId]) ∈ st.fs.dirs →
    ((ids.foldl (manifestStep r now) st).fs.readFile (r ++ [camId]) "frames.json") =
      some (jsonArray (sortedStrings (jpgNamesIn
        ((ids.foldl (manifestStep r now) st).fs) (r ++ [camId])))) := by
  induction ids with
  | nil =>
    intro st camId hmem _
    exact absurd hmem (List.not_mem_nil camId)
  | cons a rest ih =>
    intro st camId hmem hd
    rw [List.foldl_cons]
    by_cases hin : camId ∈ rest
    · exact ih _ camId hin (by rw [manifestStep_dirs]; exact hd)
    · have ha : a = camId := by
        rcases List.mem_cons.mp hmem with he | he
        · exact he.symm
        · exact absurd he hin
      subst ha
      have hstep : (manifestStep r now st a).fs =
          st.fs.writeFile (r ++ [a]) "frames.json"
            (jsonArray (sortedStrings (jpgNamesIn st.fs (r ++ [a])))) now := by
        simp only [manifestStep, if_pos hd]
      rw [readFile_manifestFold_notin r now rest _ a hin,
        jpgNamesIn_manifestFold, hstep, readFile_writeFile_same,
        jpgNamesIn_writeFile_nonjpg _ _ _ _ _ _ (by decide)]

/-! ## Capture-loop invariant: touched cameras have their index folder -/

theorem mem_insertTouched (t : List String) (x c : String)
    (h : c ∈ insertTouched t x) : c ∈ t ∨ c = x := by
  unfold insertTouched at h
  split at h
  · exact Or.inl h
  · rcases List.mem_append.mp h with h2 | h2
    · exact Or.inl h2
    · exact Or.inr (by simpa using h2)

theorem processCam_dirs_mono (env : Env) (cfg : Config) (ts : String)
    (now : Int) (st : RunState) (cam : Cam) (q : List String)
    (h : q ∈ st.fs.dirs) : q ∈ (processCam env cfg ts now st cam).fs.dirs := by
  unfold processCam
  split
  · exact h
  · simp only
    split
    · split
      · exact mkdirP_dirs_mem _ _ _ h
      · simp only [writeFile_dirs]
        exact mkdirP_dirs_mem _ _ _ (mkdirP_dirs_mem _ _ _ h)
    · exact mkdirP_dirs_mem _ _ _ h

theorem processCam_touched_dirs (env : Env) (cfg : Config) (ts : String)
    (now : Int) (st : RunState) (cam : Cam)
    (hinv : ∀ c ∈ st.touched, indexRootOf cfg ++ [c] ∈ st.fs.dirs) :
    ∀ c ∈ (processCam env cfg ts now st cam).touched,
      indexRootOf cfg ++ [c] ∈ (processCam env cfg ts now st cam).fs.dirs := by
  intro c hc
  by_cases hv : camValid cam = true
  · by_cases hok : env.captureOk (cam.stream.getD "") = true
    · by_cases hp : cfg.noPublish = true
      · simp only [processCam, hv, hok, hp, not_true, if_true, ite_true,
          if_false, ite_false, Bool.not_true, writeFile_dirs] at hc ⊢
        rcases mem_insertTouched _ _ _ hc with hold | rfl
        · exact mkdirP_dirs_mem _ _ _ (hinv c hold)
        · rw [show indexRootOf cfg = cfg.stagingDir from by simp [indexRootOf, hp]]
          exact mkdirP_dirs_self _ _
      · simp only [processCam, hv, hok, hp, not_true, if_true, ite_true,
          if_false, ite_false, Bool.not_true, writeFile_dirs] at hc ⊢
        rcases mem_insertTouched _ _ _ hc with hold | rfl
        · exact mkdirP_dirs_mem _ _ _ (mkdirP_dirs_mem _ _ _ (hinv c hold))
        · rw [show indexRootOf cfg = cfg.publishDir from by simp [indexRootOf, hp]]
          exact mkdirP_dirs_self _ _
    · simp only [processCam, hv, hok, not_true, if_true, ite_true,
        if_false, ite_false, Bool.not_true] at hc ⊢
      exact mkdirP_dirs_mem _ _ _ (hinv c hc)
  · have hv2 : camValid cam = false := by revert hv; cases camValid cam <;> simp
    rw [processCam_skips_invalid env cfg ts now st cam hv2] at hc ⊢
    exact hinv c hc

theorem captureFold_touched_dirs (env : Env) (cfg : Config) (ts : String)
    (now : Int) (cams : List Cam) (st : RunState)
    (hinv : ∀ c ∈ st.touched, indexRootOf cfg ++ [c] ∈ st.fs.dirs) :
    ∀ c ∈ ((cams.foldl (processCam env cfg ts now) st).touched),
      indexRootOf cfg ++ [c] ∈ ((cams.foldl (processCam env cfg ts now) st).fs.dirs) := by
  induction cams generalizing st with
  | nil => exact hinv
  | cons a rest ih =>
    rw [List.foldl_cons]
    exact ih _ (processCam_touched_dirs env cfg ts now st a hinv)

/-! ## C1: the manifest equals the sorted on-disk listing -/

theorem rebuildManifest_touched (r : List String) (now : Int) (st : RunState) :
    (rebuildManifest r now st).touched = st.touched :=
  manifestFold_touched r now st.touched st

theorem rebuildManifest_dirs (r : List String) (now : Int) (st : RunState) :
    (rebuildManifest r now st).fs.dirs = st.fs.dirs :=
  manifestFold_dirs r now st.touched st

/-- C1: for every camera touched during a run, the manifest `frames.json`
in that camera's folder under the index root is, after the run, the JSON
array of the sorted `*.jpg` filenames present in that folder — a sorted
permutation of the listing — and rebuilding the manifest again from the
final state yields an identical file. -/
theorem manifest_matches_disk (env : Env) (cfg : Config) (fs0 : FS)
    (now : Int) (dt : DateTime) (camId : String)
    (h : camId ∈ (runMain env cfg fs0 now dt).touched) :
    (runMain env cfg fs0 now dt).fs.readFile (indexRootOf cfg ++ [camId])
        "frames.json" =
      some (jsonArray (sortedStrings (jpgNamesIn (runMain env cfg fs0 now dt).fs
        (indexRootOf cfg ++ [camId])))) ∧
    List.Perm
      (sortedStrings (jpgNamesIn (runMain env cfg fs0 now dt).fs
        (indexRootOf cfg ++ [camId])))
      (jpgNamesIn (runMain env cfg fs0 now dt).fs (indexRootOf cfg ++ [camId])) ∧
    List.Pairwise (fun a b => strLeb a b = true)
      (sortedStrings (jpgNamesIn (runMain env cfg fs0 now dt).fs
        (indexRootOf cfg ++ [camId]))) ∧
    (rebuildManifest (indexRootOf cfg) now
        ⟨(runMain env cfg fs0 now dt).fs, (runMain env cfg fs0 now dt).touched,
          (runMain env cfg fs0 now dt).log⟩).fs.readFile
        (indexRootOf cfg ++ [camId]) "frames.json" =
      (runMain env cfg fs0 now dt).fs.readFile (indexRootOf cfg ++ [camId])
        "frames.json" := by
  refine ⟨?_, sortedStrings_perm _, sortedStrings_pairwise _, ?_⟩ <;>
  rcases hres : resolveCamsFile env cfg with _ | p
  · simp only [runMain, hres] at h
    exact absurd h (List.not_mem_nil _)
  case some =>
    rcases hcat : env.parseCatalog p with _ | catalog
    · simp only [runMain, hres, hcat] at h
      exact absurd h (List.not_mem_nil _)
    case some =>
      simp only [runMain, hres, hcat] at h ⊢
      rw [rebuildManifest_touched] at h
      have hd : indexRootOf cfg ++ [camId] ∈
          (captureLoop env cfg now dt catalog (initialFS cfg fs0 now)).fs.dirs := by
        refine captureFold_touched_dirs env cfg (formatTs dt) now _ _ ?_ camId h
        intro c hc
        exact absurd hc (List.not_mem_nil c)
      rw [rebuildManifest]
      exact manifestFold_content (indexRootOf cfg) now _ _ camId h hd
  · simp only [runMain, hres] at h
    exact absurd h (List.not_mem_nil _)
  case some =>
    rcases hcat : env.parseCatalog p with _ | catalog
    · simp only [runMain, hres, hcat] at h
      exact absurd h (List.not_mem_nil _)
    case some =>
      simp only [runMain, hres, hcat] at h ⊢
      rw [rebuildManifest_touched] at h
      have hd : indexRootOf cfg ++ [camId] ∈
          (captureLoop env cfg now dt catalog (initialFS cfg fs0 now)).fs.dirs := by
        refine captureFold_touched_dirs env cfg (formatTs dt) now _ _ ?_ camId h
        intro c hc
        exact absurd hc (List.not_mem_nil c)
      have hc1 : (rebuildManifest (indexRootOf cfg) now
            (captureLoop env cfg now dt catalog (initialFS cfg fs0 now))).fs.readFile
            (indexRootOf cfg ++ [camId]) "frames.json" =
          some (jsonArray (sortedStrings (jpgNamesIn
            (rebuildManifest (indexRootOf cfg) now
              (captureLoop env cfg now dt catalog (initialFS cfg fs0 now))).fs
            (indexRootOf cfg ++ [camId])))) := by
        rw [rebuildManifest]
        exact manifestFold_content (indexRootOf cfg) now _ _ camId h hd
      have h2 : camId ∈ (⟨(rebuildManifest (indexRootOf cfg) now
            (captureLoop env cfg now dt catalog (initialFS cfg fs0 now))).fs,
          (rebuildManifest (indexRootOf cfg) now
            (captureLoop env cfg now dt catalog (initialFS cfg fs0 now))).touched,
          (rebuildManifest (indexRootOf cfg) now
            (captureLoop env cfg now dt catalog (initialFS cfg fs0 now))).log ++
            ["✅ Timelapse updated. Indexed " ++
              toString (rebuildManifest (indexRootOf cfg) now
                (captureLoop env cfg now dt catalog
                  (initialFS cfg fs0 now))).touched.length ++
              " cam(s) under: " ++ pathString (indexRootOf cfg)]⟩ :
          RunState).touched := by
        rw [rebuildManifest_touched]
        exact h
      have hd2 : indexRootOf cfg ++ [camId] ∈ (⟨(rebuildManifest (indexRootOf cfg) now
            (captureLoop env cfg now dt catalog (initialFS cfg fs0 now))).fs,
          (rebuildManifest (indexRootOf cfg) now
            (captureLoop env cfg now dt catalog (initialFS cfg fs0 now))).touched,
          (rebuildManifest (indexRootOf cfg) now
            (captureLoop env cfg now dt catalog (initialFS cfg fs0 now))).log ++
            ["✅ Timelapse updated. Indexed " ++
              toString (rebuildManifest (indexRootOf cfg) now
                (captureLoop env cfg now dt catalog
                  (initialFS cfg fs0 now))).touched.length ++
              " cam(s) under: " ++ pathString (indexRootOf cfg)]⟩ :
          RunState).fs.dirs := by
        rw [rebuildManifest_dirs]
        exact hd
      have hc2 := manifestFold_content (indexRootOf cfg) now _ _ camId h2 hd2
      rw [rebuildManifest, hc2, jpgNamesIn_manifestFold, hc1]

/-- Witness for C1: one touched camera; its manifest is the sorted jpg
listing (concretely, the single run frame), and rebuilding leaves the
file identical. -/
theorem manifest_matches_disk_witness :
    "cam1" ∈ (runMain ⟨id, fun _ => true,
        fun _ => some [⟨[⟨some "cam1", some "s1"⟩]⟩], fun _ => true⟩
      ⟨none, true, 14, "2", "cams.json", ".", ["stage"], ["pub"]⟩
      ⟨[], []⟩ 1000 ⟨2024, 1, 2, 3, 4, 5⟩).touched ∧
    (runMain ⟨id, fun _ => true,
        fun _ => some [⟨[⟨some "cam1", some "s1"⟩]⟩], fun _ => true⟩
      ⟨none, true, 14, "2", "cams.json", ".", ["stage"], ["pub"]⟩
      ⟨[], []⟩ 1000 ⟨2024, 1, 2, 3, 4, 5⟩).fs.readFile
        (indexRootOf ⟨none, true, 14, "2", "cams.json", ".", ["stage"], ["pub"]⟩ ++
          ["cam1"]) "frames.json" =
      some (jsonArray (sortedStrings (jpgNamesIn
        (runMain ⟨id, fun _ => true,
            fun _ => some [⟨[⟨some "cam1", some "s1"⟩]⟩], fun _ => true⟩
          ⟨none, true, 14, "2", "cams.json", ".", ["stage"], ["pub"]⟩
          ⟨[], []⟩ 1000 ⟨2024, 1, 2, 3, 4, 5⟩).fs
        (indexRootOf ⟨none, true, 14, "2", "cams.json", ".", ["stage"], ["pub"]⟩ ++
          ["cam1"])))) ∧
    (runMain ⟨id, fun _ => true,
        fun _ => some [⟨[⟨some "cam1", some "s1"⟩]⟩], fun _ => true⟩
      ⟨none, true, 14, "2", "cams.json", ".", ["stage"], ["pub"]⟩
      ⟨[], []⟩ 1000 ⟨2024, 1, 2, 3, 4, 5⟩).fs.readFile (["stage", "cam1"])
        "frames.json" = some "[\"2024-01-02T03-04-05.jpg\"]" := by
  have h := manifest_matches_disk ⟨id, fun _ => true,
      fun _ => some [⟨[⟨some "cam1", some "s1"⟩]⟩], fun _ => true⟩
    ⟨none, true, 14, "2", "cams.json", ".", ["stage"], ["pub"]⟩
    ⟨[], []⟩ 1000 ⟨2024, 1, 2, 3, 4, 5⟩ "cam1" (by decide)
  exact ⟨by decide, h.1, by decide⟩

/-! ## C10: untouched cameras keep their manifest untouched -/

theorem isJpg_append_jpg (ts : String) : isJpgName (ts ++ ".jpg") = true := by
  simp only [isJpgName, String.data_append]
  have h : ".jpg".data <:+ ts.data ++ ".jpg".data := List.suffix_append ts.data ".jpg".data
  exact List.isSuffixOf_iff_suffix.mpr h

theorem jpgname_ne_manifest (ts : String) : ts ++ ".jpg" ≠ "frames.json" := by
  intro he
  have h1 := isJpg_append_jpg ts
  rw [he] at h1
  exact absurd h1 (by decide)

/-- The retention sweep only deletes `*.jpg` files, so reading any
non-`*.jpg` file is unaffected. -/
theorem readFile_purge_nonjpg (fs : FS) (root : List String) (days now : Int)
    (d : List String) (n : String) (hn : isJpgName n = false) :
    (purge_older_than fs root days now).readFile d n = fs.readFile d n := by
  unfold purge_older_than
  split
  · rfl
  · simp only [FS.readFile]
    congr 1
    apply find?_filter_of_imp
    intro x hx
    simp only [decide_eq_true_eq] at hx
    simp only [decide_eq_true_eq]
    rintro ⟨_, hjpg, _⟩
    rw [hx.2] at hjpg
    rw [hjpg] at hn
    exact Bool.true_eq_false.mp hn

theorem readFile_initialFS_nonjpg (cfg : Config) (fs0 : FS) (now : Int)
    (d : List String) (n : String) (hn : isJpgName n = false) :
    (initialFS cfg fs0 now).readFile d n = fs0.readFile d n := by
  by_cases hp : cfg.noPublish = true
  · simp only [initialFS, if_pos hp]
    rw [readFile_purge_nonjpg _ _ _ _ _ _ hn, readFile_mkdirP]
  · simp only [initialFS, if_neg hp]
    rw [readFile_purge_nonjpg _ _ _ _ _ _ hn, readFile_purge_nonjpg _ _ _ _ _ _ hn,
      readFile_mkdirP, readFile_mkdirP]

/-- The capture loop writes only `<timestamp>.jpg` files, so it never
touches a `frames.json`. -/
theorem readFile_processCam_manifest (env : Env) (cfg : Config) (ts : String)
    (now : Int) (st : RunState) (cam : Cam) (d : List String) :
    (processCam env cfg ts now st cam).fs.readFile d "frames.json" =
      st.fs.readFile d "frames.json" := by
  by_cases hv : camValid cam = true
  · by_cases hok : env.captureOk (cam.stream.getD "") = true
    · by_cases hp : cfg.noPublish = true
      · simp only [processCam, hv, hok, hp, not_true, if_true, ite_true,
          if_false, ite_false, Bool.not_true]
        rw [readFile_writeFile_other _ _ _ _ _ _ _
          (fun hc => jpgname_ne_manifest ts hc.2), readFile_mkdirP]
      · simp [processCam, hv, hok, hp]
        rw [readFile_writeFile_other _ _ _ _ _ _ _
            (fun hc => jpgname_ne_manifest ts hc.2), readFile_mkdirP,
          readFile_writeFile_other _ _ _ _ _ _ _
            (fun hc => jpgname_ne_manifest ts hc.2), readFile_mkdirP]
    · simp [processCam, hv, hok]
      rw [readFile_mkdirP]
  · have hv2 : camValid cam = false := by revert hv; cases camValid cam <;> simp
    rw [processCam_skips_invalid env cfg ts now st cam hv2]

theorem readFile_captureFold_manifest (env : Env) (cfg : Config) (ts : String)
    (now : Int) (cams : List Cam) (st : RunState) (d : List String) :
    ((cams.foldl (processCam env cfg ts now) st).fs.readFile d "frames.json") =
      st.fs.readFile d "frames.json" := by
  induction cams generalizing st with
  | nil => rfl
  | cons a rest ih =>
    rw [List.foldl_cons, ih, readFile_processCam_manifest]

/-- C10: a run never writes or modifies the `frames.json` of a camera it
did not touch — in particular, after the retention sweep deletes frames
from an untouched camera's folder, that camera's pre-existing manifest is
byte-for-byte what it was before the run. -/
theorem untouched_manifest_unmodified (env : Env) (cfg : Config) (fs0 : FS)
    (now : Int) (dt : DateTime) (camId : String)
    (h : camId ∉ (runMain env cfg fs0 now dt).touched) :
    (runMain env cfg fs0 now dt).fs.readFile (indexRootOf cfg ++ [camId])
        "frames.json" =
      fs0.readFile (indexRootOf cfg ++ [camId]) "frames.json" := by
  rcases hres : resolveCamsFile env cfg with _ | p
  · simp only [runMain, hres]
  · rcases hcat : env.parseCatalog p with _ | catalog
    · simp only [runMain, hres, hcat]
    · simp only [runMain, hres, hcat] at h ⊢
      rw [rebuildManifest_touched] at h
      rw [rebuildManifest, readFile_manifestFold_notin _ _ _ _ _ h,
        captureLoop, readFile_captureFold_manifest,
        readFile_initialFS_nonjpg _ _ _ _ _ (by decide)]

/-- Witness for C10: an untouched camera's folder loses its only frame to
the retention sweep, yet its manifest still reads exactly as before the
run and now lists a filename that is no longer on disk. -/
theorem untouched_manifest_unmodified_witness :
    "old" ∉ (runMain ⟨id, fun _ => true, fun _ => some [], fun _ => true⟩
      ⟨none, true, 0, "2", "cams.json", ".", ["stage"], ["pub"]⟩
      ⟨[⟨["stage", "old"], "a.jpg", "x", -100000000⟩,
        ⟨["stage", "old"], "frames.json", "[\"a.jpg\"]", -100000000⟩],
        [["stage"], ["stage", "old"]]⟩ 0 ⟨2024, 1, 2, 3, 4, 5⟩).touched ∧
    (runMain ⟨id, fun _ => true, fun _ => some [], fun _ => true⟩
      ⟨none, true, 0, "2", "cams.json", ".", ["stage"], ["pub"]⟩
      ⟨[⟨["stage", "old"], "a.jpg", "x", -100000000⟩,
        ⟨["stage", "old"], "frames.json", "[\"a.jpg\"]", -100000000⟩],
        [["stage"], ["stage", "old"]]⟩ 0 ⟨2024, 1, 2, 3, 4, 5⟩).fs.readFile
        (indexRootOf ⟨none, true, 0, "2", "cams.json", ".", ["stage"], ["pub"]⟩ ++
          ["old"]) "frames.json" =
      (⟨[⟨["stage", "old"], "a.jpg", "x", -100000000⟩,
        ⟨["stage", "old"], "frames.json", "[\"a.jpg\"]", -100000000⟩],
        [["stage"], ["stage", "old"]]⟩ : FS).readFile
        (indexRootOf ⟨none, true, 0, "2", "cams.json", ".", ["stage"], ["pub"]⟩ ++
          ["old"]) "frames.json" ∧
    (runMain ⟨id, fun _ => true, fun _ => some [], fun _ => true⟩
      ⟨none, true, 0, "2", "cams.json", ".", ["stage"], ["pub"]⟩
      ⟨[⟨["stage", "old"], "a.jpg", "x", -100000000⟩,
        ⟨["stage", "old"], "frames.json", "[\"a.jpg\"]", -100000000⟩],
        [["stage"], ["stage", "old"]]⟩ 0 ⟨2024, 1, 2, 3, 4, 5⟩).fs.readFile
        ["stage", "old"] "frames.json" = some "[\"a.jpg\"]" ∧
    (⟨["stage", "old"], "a.jpg", "x", -100000000⟩ : FileEnt) ∉
      (runMain ⟨id, fun _ => true, fun _ => some [], fun _ => true⟩
        ⟨none, true, 0, "2", "cams.json", ".", ["stage"], ["pub"]⟩
        ⟨[⟨["stage", "old"], "a.jpg", "x", -100000000⟩,
          ⟨["stage", "old"], "frames.json", "[\"a.jpg\"]", -100000000⟩],
          [["stage"], ["stage", "old"]]⟩ 0 ⟨2024, 1, 2, 3, 4, 5⟩).fs.files := by
  have h := untouched_manifest_unmodified
    ⟨id, fun _ => true, fun _ => some [], fun _ => true⟩
    ⟨none, true, 0, "2", "cams.json", ".", ["stage"], ["pub"]⟩
    ⟨[⟨["stage", "old"], "a.jpg", "x", -100000000⟩,
      ⟨["stage", "old"], "frames.json", "[\"a.jpg\"]", -100000000⟩],
      [["stage"], ["stage", "old"]]⟩ 0 ⟨2024, 1, 2, 3, 4, 5⟩ "old" (by decide)
  exact ⟨by decide, h, by decide, by decide⟩
